import Mathlib

/-!
Verification development for the PR-analysis backend.

The definitions below are a shallow embedding of the repository's Python
sources (`app/models.py`, `app/services/cache_service.py`,
`app/services/groq_service.py`): machine integers become `Nat`/`Int` with
explicit reductions modulo 2^32 where the hash algorithm overflows,
Python dicts become association lists, wall-clock instants become
rationals passed explicitly, and the external Groq completion call
becomes an oracle of per-attempt outcomes.
-/

set_option maxRecDepth 4000

namespace GitPRBackend

/-! ### Generic helpers -/

def listFlat {α : Type} : List (List α) → List α
  | [] => []
  | x :: xs => x ++ listFlat xs

def joinSep (sep : String) : List String → String
  | [] => ""
  | [x] => x
  | x :: y :: xs => x ++ sep ++ joinSep sep (y :: xs)

/-! ### SHA-256 (FIPS 180-4), over byte lists, words as `Nat` reduced mod 2^32 -/

def M32 : Nat := 4294967296

def add32 (a b : Nat) : Nat := (a + b) % M32

def rotr32 (n x : Nat) : Nat := (x >>> n) ||| ((x <<< (32 - n)) % M32)

def smallSigma0 (x : Nat) : Nat := rotr32 7 x ^^^ rotr32 18 x ^^^ (x >>> 3)

def smallSigma1 (x : Nat) : Nat := rotr32 17 x ^^^ rotr32 19 x ^^^ (x >>> 10)

def bigSigma0 (x : Nat) : Nat := rotr32 2 x ^^^ rotr32 13 x ^^^ rotr32 22 x

def bigSigma1 (x : Nat) : Nat := rotr32 6 x ^^^ rotr32 11 x ^^^ rotr32 25 x

def chFn (x y z : Nat) : Nat := (x &&& y) ^^^ ((x ^^^ 4294967295) &&& z)

def majFn (x y z : Nat) : Nat := (x &&& y) ^^^ (x &&& z) ^^^ (y &&& z)

def shaK : List Nat :=
  [1116352408, 1899447441, 3049323471, 3921009573, 961987163, 1508970993,
   2453635748, 2870763221, 3624381080, 310598401, 607225278, 1426881987,
   1925078388, 2162078206, 2614888103, 3248222580, 3835390401, 4022224774,
   264347078, 604807628, 770255983, 1249150122, 1555081692, 1996064986,
   2554220882, 2821834349, 2952996808, 3210313671, 3336571891, 3584528711,
   113926993, 338241895, 666307205, 773529912, 1294757372, 1396182291,
   1695183700, 1986661051, 2177026350, 2456956037, 2730485921, 2820302411,
   3259730800, 3345764771, 3516065817, 3600352804, 4094571909, 275423344,
   430227734, 506948616, 659060556, 883997877, 958139571, 1322822218,
   1537002063, 1747873779, 1955562222, 2024104815, 2227730452, 2361852424,
   2428436474, 2756734187, 3204031479, 3329325298]

structure ShaState where
  a : Nat
  b : Nat
  c : Nat
  d : Nat
  e : Nat
  f : Nat
  g : Nat
  h : Nat
deriving DecidableEq, Repr

def shaInit : ShaState :=
  ⟨1779033703, 3144134277, 1013904242, 2773480762,
   1359893119, 2600822924, 528734635, 1541459225⟩

/-- Big-endian byte decomposition: `toBytesBE n v` is the `n` low-order
bytes of `v`, most significant first. -/
def toBytesBE : Nat → Nat → List Nat
  | 0, _ => []
  | n + 1, v => toBytesBE n (v >>> 8) ++ [v &&& 255]

/-- Big-endian word from a list of bytes. -/
def wordOfBytes (bs : List Nat) : Nat := bs.foldl (fun acc b => acc * 256 + b) 0

/-- The sixteen 32-bit words of one 64-byte block. -/
def blockWords : List Nat → List Nat
  | [] => []
  | b :: rest => wordOfBytes ((b :: rest).take 4) :: blockWords ((b :: rest).drop 4)
termination_by bs => bs.length
decreasing_by
  simp only [List.length_drop, List.length_cons]
  omega

/-- Message-schedule extension: append `k` more words to `ws`. -/
def extendW (ws : List Nat) : Nat → List Nat
  | 0 => ws
  | k + 1 =>
    let prev := extendW ws k
    let i := prev.length
    prev ++ [add32 (add32 (prev.getD (i - 16) 0) (smallSigma0 (prev.getD (i - 15) 0)))
                   (add32 (prev.getD (i - 7) 0) (smallSigma1 (prev.getD (i - 2) 0)))]

def compressRound (st : ShaState) (kw : Nat × Nat) : ShaState :=
  let t1 := add32 st.h (add32 (bigSigma1 st.e) (add32 (chFn st.e st.f st.g) (add32 kw.1 kw.2)))
  let t2 := add32 (bigSigma0 st.a) (majFn st.a st.b st.c)
  ⟨add32 t1 t2, st.a, st.b, st.c, add32 st.d t1, st.e, st.f, st.g⟩

def compressBlock (st : ShaState) (block : List Nat) : ShaState :=
  let w := extendW (blockWords block) 48
  let f := (shaK.zip w).foldl compressRound st
  ⟨add32 st.a f.a, add32 st.b f.b, add32 st.c f.c, add32 st.d f.d,
   add32 st.e f.e, add32 st.f f.f, add32 st.g f.g, add32 st.h f.h⟩

/-- Split a byte list into 64-byte chunks. -/
def chunks64 (l : List Nat) : List (List Nat) :=
  if l.isEmpty then []
  else l.take 64 :: chunks64 (l.drop 64)
termination_by l.length
decreasing_by
  simp only [List.length_drop]
  rename_i h
  simp only [List.isEmpty_iff] at h
  have : 0 < l.length := List.length_pos.mpr h
  omega

/-- SHA-256 padding: append 0x80, zero bytes to reach 56 mod 64, then the
64-bit big-endian bit length. -/
def shaPad (msg : List Nat) : List Nat :=
  msg ++ [128] ++ List.replicate ((120 - ((msg.length + 1) % 64)) % 64) 0
      ++ toBytesBE 8 (msg.length * 8)

/-- SHA-256 digest of a byte list, as the 32-byte digest. -/
def sha256 (msg : List Nat) : List Nat :=
  let st := (chunks64 (shaPad msg)).foldl compressBlock shaInit
  toBytesBE 4 st.a ++ toBytesBE 4 st.b ++ toBytesBE 4 st.c ++ toBytesBE 4 st.d ++
  toBytesBE 4 st.e ++ toBytesBE 4 st.f ++ toBytesBE 4 st.g ++ toBytesBE 4 st.h

/-- Lowercase hexadecimal digit. -/
def hexDigitChar (n : Nat) : Char :=
  if n < 10 then Char.ofNat (48 + n) else Char.ofNat (87 + n)

/-- Lowercase hexadecimal encoding of a byte list (Python `hexdigest()`). -/
def hexOfBytes (bs : List Nat) : String :=
  String.mk (listFlat (bs.map (fun b => [hexDigitChar (b / 16), hexDigitChar (b % 16)])))

/-- UTF-8 encoding of one Unicode scalar value. -/
def utf8Bytes (c : Nat) : List Nat :=
  if c < 128 then [c]
  else if c < 2048 then [192 ||| (c >>> 6), 128 ||| (c &&& 63)]
  else if c < 65536 then
    [224 ||| (c >>> 12), 128 ||| ((c >>> 6) &&& 63), 128 ||| (c &&& 63)]
  else
    [240 ||| (c >>> 18), 128 ||| ((c >>> 12) &&& 63),
     128 ||| ((c >>> 6) &&& 63), 128 ||| (c &&& 63)]

/-- UTF-8 encoding of a string (Python `str.encode()`). -/
def utf8Encode (s : String) : List Nat :=
  listFlat (s.data.map (fun c => utf8Bytes c.toNat))

/-! ### JSON serialization as performed by Python `json.dumps(..., sort_keys=True)`
with default separators and `ensure_ascii=True`. Only the value shapes that
occur in the cache-key record are needed: strings, integers, string arrays. -/

inductive JValue where
  | jstr (s : String)
  | jint (i : Int)
  | jstrarr (l : List String)
deriving DecidableEq, Repr

/-- `\uXXXX` escape with four lowercase hex digits. -/
def uEscape4 (n : Nat) : List Char :=
  ['\\', 'u', hexDigitChar (n / 4096 % 16), hexDigitChar (n / 256 % 16),
   hexDigitChar (n / 16 % 16), hexDigitChar (n % 16)]

/-- Escape of one character inside a JSON string literal: the two-character
escapes for quote, backslash and the named control characters, `\uXXXX`
(with a surrogate pair above the BMP) for every other character outside
the printable ASCII range, and the character itself otherwise. -/
def jsonEscapeChar (c : Char) : List Char :=
  if c = '"' then ['\\', '"']
  else if c = '\\' then ['\\', '\\']
  else if c.toNat = 10 then ['\\', 'n']
  else if c.toNat = 13 then ['\\', 'r']
  else if c.toNat = 9 then ['\\', 't']
  else if c.toNat = 8 then ['\\', 'b']
  else if c.toNat = 12 then ['\\', 'f']
  else if c.toNat < 32 ∨ c.toNat > 126 then
    if c.toNat < 65536 then uEscape4 c.toNat
    else uEscape4 (55296 + (c.toNat - 65536) / 1024) ++ uEscape4 (56320 + (c.toNat - 65536) % 1024)
  else [c]

/-- JSON string literal, double-quoted and escaped. -/
def jsonStr (s : String) : String :=
  String.mk ('"' :: (listFlat (s.data.map jsonEscapeChar) ++ ['"']))

def jsonSer : JValue → String
  | .jstr s => jsonStr s
  | .jint i => toString i
  | .jstrarr l => "[" ++ joinSep ", " (l.map jsonStr) ++ "]"

/-- Insertion into a key-sorted association list (Python's `sorted` on keys,
code-point lexicographic). -/
def insertSorted (p : String × JValue) : List (String × JValue) → List (String × JValue)
  | [] => [p]
  | q :: qs => if p.1 ≤ q.1 then p :: q :: qs else q :: insertSorted p qs

def sortByKey (l : List (String × JValue)) : List (String × JValue) :=
  l.foldr insertSorted []

/-- `json.dumps(obj, sort_keys=True)` for a flat string-keyed object with
default separators. -/
def jsonDumpsObj (l : List (String × JValue)) : String :=
  "\x7b" ++ joinSep ", " ((sortByKey l).map (fun p => jsonStr p.1 ++ ": " ++ jsonSer p.2)) ++ "\x7d"

/-! ### Data model (`app/models.py`)

Pydantic models become structures. `PRAnalyzeRequest.description` is the
post-validation value (always a string, see `validate_description`); the
integer fields carry `Int` because the source declares plain `int` with no
lower bound. -/

structure PRFile where
  filename : String
  status : String
  additions : Int
  deletions : Int
  changes : Int
  patch : Option String
deriving DecidableEq, Repr

structure PRCommit where
  sha : String
  message : String
  author : String
deriving DecidableEq, Repr

structure PRAnalyzeRequest where
  title : String
  description : String
  files : List PRFile
  commits : List PRCommit
  base_branch : String
  head_branch : String
  pr_url : String
deriving DecidableEq, Repr

structure PRContext where
  summary : String
  purpose : String
  testing_focus : List String
  potential_risks : List String
  affected_areas : List String
  review_priority : String
  estimated_review_time : String
  key_changes : List String
deriving DecidableEq, Repr

/-! ### Request validators (`app/models.py`, `PRAnalyzeRequest`) -/

/-- `validate_files`: the `@validator('files')` body — reject more than 100
files, otherwise pass the list through. -/
def validate_files (v : List PRFile) : Except String (List PRFile) :=
  if 100 < v.length then .error "Too many files. Maximum 100 files allowed."
  else .ok v

/-- The declarative `Field(..., min_items=1)` constraint on `files`. -/
def filesMinItemsOk (v : List PRFile) : Bool := 1 ≤ v.length

/-- A `files` value is accepted by request validation iff it passes both the
`min_items=1` field constraint and the `validate_files` validator. -/
def filesAccepted (v : List PRFile) : Bool :=
  filesMinItemsOk v &&
    (match validate_files v with
     | .ok _ => true
     | .error _ => false)

/-- `validate_description`: the `@validator('description')` body — a value
longer than 10000 characters is truncated and suffixed, a missing or falsy
value becomes the empty string. -/
def validate_description (v : Option String) : String :=
  match v with
  | none => ""
  | some s =>
    if s ≠ "" ∧ 10000 < s.length then s.take 10000 ++ "... (truncated)"
    else s

/-! ### Cache fingerprint (`app/services/cache_service.py`, `_generate_cache_key`) -/

def totalAdditions (files : List PRFile) : Int :=
  (files.map (fun f => f.additions)).foldl (fun a b => a + b) 0

def totalDeletions (files : List PRFile) : Int :=
  (files.map (fun f => f.deletions)).foldl (fun a b => a + b) 0

/-- The `cache_input` dict built by `_generate_cache_key`, in source
insertion order. -/
def cache_input (pr : PRAnalyzeRequest) : List (String × JValue) :=
  [("title", .jstr pr.title),
   ("files", .jint (pr.files.length : Int)),
   ("total_additions", .jint (totalAdditions pr.files)),
   ("total_deletions", .jint (totalDeletions pr.files)),
   ("sample_files", .jstrarr ((pr.files.take 3).map (fun f => f.filename)))]

/-- `_generate_cache_key`: SHA-256 over the UTF-8 bytes of the sorted-key
JSON dump of `cache_input`, hex-encoded and truncated to 16 characters. -/
def generate_cache_key (pr : PRAnalyzeRequest) : String :=
  (hexOfBytes (sha256 (utf8Encode (jsonDumpsObj (cache_input pr))))).take 16

/-- Modelled from the spec (§4.1): the fingerprint as a function of only the
five canonical fields — title, file count, total additions, total deletions
and the first three file paths — serialized with sorted field names,
SHA-256 hashed, hex encoded and truncated to 16 characters. -/
def fingerprintOfFields (title : String) (fileCount : Nat) (adds dels : Int)
    (sampleFiles : List String) : String :=
  (hexOfBytes (sha256 (utf8Encode (jsonDumpsObj
    [("title", .jstr title),
     ("files", .jint (fileCount : Int)),
     ("total_additions", .jint adds),
     ("total_deletions", .jint dels),
     ("sample_files", .jstrarr sampleFiles)])))).take 16

/-! ### Cache service (`app/services/cache_service.py`)

The `_cache` dict is an association list with unique keys; `dictGet`,
`dictSet` and `dictDel` mirror Python `d[k]` / `d[k] = v` / `del d[k]`
(on duplicate-key lists, which a Python dict can never be, `dictSet`
rewrites and `dictDel` removes every occurrence). Wall-clock instants
(`time.time()`) are rationals passed explicitly. -/

structure CacheEntry where
  data : PRContext
  timestamp : ℚ
  pr_title : String
deriving DecidableEq, Repr

def dictGet {α : Type} : List (String × α) → String → Option α
  | [], _ => none
  | q :: qs, k => if q.1 = k then some q.2 else dictGet qs k

def dictSet {α : Type} (c : List (String × α)) (k : String) (v : α) : List (String × α) :=
  if c.any (fun q => decide (q.1 = k)) then
    c.map (fun q => if q.1 = k then (k, v) else q)
  else c ++ [(k, v)]

def dictDel {α : Type} (c : List (String × α)) (k : String) : List (String × α) :=
  c.filter (fun q => decide (¬ q.1 = k))

structure CacheService where
  cache : List (String × CacheEntry)
  ttl : ℚ
deriving DecidableEq, Repr

structure StatsEntry where
  key : String
  age_seconds : Int
  pr_title : String
deriving DecidableEq, Repr

structure CacheStats where
  total_entries : Nat
  ttl_seconds : ℚ
  entries : List StatsEntry
deriving DecidableEq, Repr

/-- `CacheService.get`: absent on a missing key; on a present key older than
the TTL, delete the entry and report absent; otherwise a hit. Returns the
result together with the post-call state. -/
def CacheService.get (s : CacheService) (pr : PRAnalyzeRequest) (now : ℚ) :
    Option PRContext × CacheService :=
  match dictGet s.cache (generate_cache_key pr) with
  | none => (none, s)
  | some entry =>
    if s.ttl < now - entry.timestamp then
      (none, { s with cache := dictDel s.cache (generate_cache_key pr) })
    else
      (some entry.data, s)

/-- `_cleanup_expired`: remove every entry whose age exceeds the TTL. -/
def cleanup_expired (c : List (String × CacheEntry)) (ttl now : ℚ) :
    List (String × CacheEntry) :=
  c.filter (fun q => decide (¬ ttl < now - q.2.timestamp))

/-- `CacheService.set`: write the entry under the fingerprint with the
current instant as timestamp, then sweep all expired entries. -/
def CacheService.set (s : CacheService) (pr : PRAnalyzeRequest) (ctx : PRContext) (now : ℚ) :
    CacheService :=
  { s with
    cache := cleanup_expired (dictSet s.cache (generate_cache_key pr) ⟨ctx, now, pr.title⟩) s.ttl now }

/-- Python `int(...)` on a rational: truncation towards zero. -/
def truncQ (q : ℚ) : Int := if q < 0 then -((-q).floor) else q.floor

/-- `CacheService.stats`. -/
def CacheService.stats (s : CacheService) (now : ℚ) : CacheStats :=
  { total_entries := s.cache.length,
    ttl_seconds := s.ttl,
    entries := s.cache.map (fun q =>
      ⟨q.1, truncQ (now - q.2.timestamp), q.2.pr_title⟩) }

/-- `CacheService.clear`. -/
def CacheService.clear (s : CacheService) : CacheService := { s with cache := [] }

/-! ### Groq service (`app/services/groq_service.py`) -/

/-- The `total_changes` aggregate of `_create_fallback_context`:
`sum(f.additions + f.deletions for f in pr_data.files)`. -/
def total_changes (pr : PRAnalyzeRequest) : Int :=
  (pr.files.map (fun f => f.additions + f.deletions)).foldl (fun a b => a + b) 0

/-- The `review_time` local of `_create_fallback_context`. -/
def fallback_review_time (pr : PRAnalyzeRequest) : String :=
  if total_changes pr < 50 then "5-10 minutes"
  else if total_changes pr < 200 then "15-25 minutes"
  else if total_changes pr < 500 then "30-45 minutes"
  else "1+ hours"

/-- The `priority` local of `_create_fallback_context`. -/
def fallback_priority (pr : PRAnalyzeRequest) : String :=
  if total_changes pr < 50 then "low"
  else if total_changes pr < 200 then "medium"
  else if total_changes pr < 500 then "high"
  else "critical"

/-- `_create_fallback_context`: synthesize a `PRContext` from aggregate
statistics of the request alone. The `raw_response` argument is accepted,
as in the source, and unused. -/
def create_fallback_context (pr : PRAnalyzeRequest) (_rawResponse : String) : PRContext :=
  { summary := "This PR modifies " ++ toString pr.files.length ++ " files with "
      ++ toString (total_changes pr) ++ " total changes.",
    purpose := if pr.description ≠ "" then pr.description.take 200 else "No description provided",
    testing_focus := ["Test the modified functionality", "Check for breaking changes",
      "Verify edge cases"],
    potential_risks := ["Changes may affect existing functionality", "Review for potential bugs"],
    affected_areas := (pr.files.take 5).map (fun f => (f.filename.splitOn "/").headD ""),
    review_priority := fallback_priority pr,
    estimated_review_time := fallback_review_time pr,
    key_changes := (pr.files.take 5).map (fun f => f.filename ++ " (" ++ f.status ++ ")") }

/-- Substring test on character lists. -/
def listContainsSub (pat : List Char) : List Char → Bool
  | [] => pat.isEmpty
  | c :: rest => pat.isPrefixOf (c :: rest) || listContainsSub pat rest

/-- The rate-limit classification of a provider error:
`"rate limit" in str(e).lower() or "quota" in str(e).lower()`. -/
def isRateLimitError (msg : String) : Bool :=
  let low := msg.data.map Char.toLower
  listContainsSub "rate limit".data low || listContainsSub "quota".data low

/-- Backoff before the next attempt after a rate-limited failure:
`min(2 ** (attempt + 2), 30)` seconds. -/
def rate_limit_wait (attempt : Nat) : Nat := min (2 ^ (attempt + 2)) 30

/-- Backoff before the next attempt after a generic failure:
`min(2 ** attempt, 10)` seconds. -/
def generic_wait (attempt : Nat) : Nat := min (2 ^ attempt) 10

/-- One attempt's externally determined outcome: the provider call together
with the response-interpretation steps that depend only on provider text.
`jsonDecodeError` is `json.loads` raising (it carries the fence-stripped
content handed to the fallback, and the error text), `validationError` is
`PRContext(**analysis_data)` raising, `groqError` is a `GroqError` from the
client call, `otherError` is any other exception. -/
inductive AttemptOutcome where
  | parsedOk (ctx : PRContext)
  | jsonDecodeError (content : String) (msg : String)
  | validationError (msg : String)
  | groqError (msg : String)
  | otherError (msg : String)
deriving DecidableEq, Repr

def AttemptOutcome.isParsedOk : AttemptOutcome → Bool
  | .parsedOk _ => true
  | _ => false

/-- How `analyze_pr` terminates: a returned `PRContext` or a raised
`ValueError` with its message. -/
inductive AnalyzeOutcome where
  | returned (ctx : PRContext)
  | raised (msg : String)
deriving DecidableEq, Repr

def rateLimitRaiseMsg : String :=
  "Groq API rate limit exceeded. Please try again in a few minutes. Free tier: 80,000 tokens/day, 30 requests/minute."

/-- The retry loop of `analyze_pr`, driven by the per-attempt outcome
oracle. `fuel` is the number of loop iterations left
(`maxRetries - attempt` at every call), `lastError` mirrors the
`last_error` variable. The second component counts provider calls made. -/
def analyzeLoop (pr : PRAnalyzeRequest) (maxRetries : Nat)
    (outcomes : Nat → AttemptOutcome) :
    Nat → Nat → String → AnalyzeOutcome × Nat
  | _, 0, lastError => (.raised ("Analysis failed: " ++ lastError), 0)
  | attempt, fuel + 1, _ =>
    match outcomes attempt with
    | .parsedOk ctx => (.returned ctx, 1)
    | .jsonDecodeError content msg =>
      if attempt + 1 = maxRetries then
        (.returned (create_fallback_context pr content), 1)
      else
        let r := analyzeLoop pr maxRetries outcomes (attempt + 1) fuel msg
        (r.1, r.2 + 1)
    | .validationError msg =>
      if attempt + 1 < maxRetries then
        let r := analyzeLoop pr maxRetries outcomes (attempt + 1) fuel msg
        (r.1, r.2 + 1)
      else
        (.raised ("Analysis failed after " ++ toString maxRetries ++ " attempts: " ++ msg), 1)
    | .groqError msg =>
      if isRateLimitError msg then
        if attempt + 1 < maxRetries then
          let r := analyzeLoop pr maxRetries outcomes (attempt + 1) fuel msg
          (r.1, r.2 + 1)
        else
          (.raised rateLimitRaiseMsg, 1)
      else
        if attempt + 1 < maxRetries then
          let r := analyzeLoop pr maxRetries outcomes (attempt + 1) fuel msg
          (r.1, r.2 + 1)
        else
          (.raised ("AI analysis failed after " ++ toString maxRetries ++ " attempts: " ++ msg), 1)
    | .otherError msg =>
      if attempt + 1 < maxRetries then
        let r := analyzeLoop pr maxRetries outcomes (attempt + 1) fuel msg
        (r.1, r.2 + 1)
      else
        (.raised ("Analysis failed after " ++ toString maxRetries ++ " attempts: " ++ msg), 1)

/-- `GroqService.analyze_pr` (attempt dispatch; `max_retries` defaults to 3
at the call sites). Yields the terminal outcome and the number of provider
calls made. -/
def analyze_pr (pr : PRAnalyzeRequest) (maxRetries : Nat)
    (outcomes : Nat → AttemptOutcome) : AnalyzeOutcome × Nat :=
  analyzeLoop pr maxRetries outcomes 0 maxRetries "None"

/-! ### Association-list (dict) lemmas -/

theorem dictGet_none_not_mem {α : Type} {k : String} :
    ∀ {c : List (String × α)}, dictGet c k = none → ∀ e, (k, e) ∉ c := by
  intro c
  induction c with
  | nil => intro _ e he; exact List.not_mem_nil _ he
  | cons q qs ih =>
    intro h e he
    by_cases hk : q.1 = k
    · simp [dictGet, hk] at h
    · rcases List.mem_cons.mp he with h1 | h1
      · exact hk (by rw [← h1])
      · simp only [dictGet, if_neg hk] at h
        exact ih h e h1

theorem eq_of_mem_dictSet {α : Type} {c : List (String × α)} {k : String} {v e : α}
    (h : (k, e) ∈ dictSet c k v) : e = v := by
  unfold dictSet at h
  split at h
  · obtain ⟨q, hq, heq⟩ := List.mem_map.mp h
    by_cases hk : q.1 = k
    · rw [if_pos hk] at heq
      injection heq with h1 h2
      exact h2.symm
    · rw [if_neg hk] at heq
      exact absurd (by rw [heq]) hk
  · rename_i hany
    rcases List.mem_append.mp h with h1 | h1
    · exact absurd (List.any_eq_true.mpr ⟨(k, e), h1, by simp⟩) hany
    · have : (k, e) = (k, v) := List.mem_singleton.mp h1
      injection this

theorem mem_dictSet_self {α : Type} (c : List (String × α)) (k : String) (v : α) :
    (k, v) ∈ dictSet c k v := by
  unfold dictSet
  split
  · rename_i hany
    obtain ⟨q, hq, hqk⟩ := List.any_eq_true.mp hany
    refine List.mem_map.mpr ⟨q, hq, ?_⟩
    rw [if_pos (by simpa using hqk)]
  · exact List.mem_append.mpr (Or.inr (List.mem_singleton.mpr rfl))

theorem mem_dictSet_of_ne {α : Type} {c : List (String × α)} {q : String × α}
    (hq : q ∈ c) {k : String} (hne : q.1 ≠ k) (v : α) : q ∈ dictSet c k v := by
  unfold dictSet
  split
  · exact List.mem_map.mpr ⟨q, hq, by rw [if_neg hne]⟩
  · exact List.mem_append.mpr (Or.inl hq)

theorem dictGet_filter_of_all_eq {α : Type} {p : String × α → Bool} {k : String} {v : α} :
    ∀ {c : List (String × α)}, (∀ e, (k, e) ∈ c → e = v) → (k, v) ∈ c → p (k, v) = true →
      dictGet (c.filter p) k = some v := by
  intro c
  induction c with
  | nil => intro _ hmem _; exact absurd hmem (List.not_mem_nil _)
  | cons q qs ih =>
    intro hall hmem hp
    obtain ⟨qk, qv⟩ := q
    by_cases hk : qk = k
    · subst hk
      have hv : qv = v := hall qv (List.mem_cons_self _ _)
      subst hv
      rw [List.filter_cons_of_pos hp]
      simp [dictGet]
    · have hmem' : (k, v) ∈ qs := by
        rcases List.mem_cons.mp hmem with h1 | h1
        · exact absurd (congrArg Prod.fst h1).symm hk
        · exact h1
      have hall' : ∀ e, (k, e) ∈ qs → e = v := fun e he => hall e (List.mem_cons_of_mem _ he)
      by_cases hpq : p (qk, qv) = true
      · rw [List.filter_cons_of_pos hpq]
        simp only [dictGet, if_neg hk]
        exact ih hall' hmem' hp
      · rw [List.filter_cons_of_neg (by simpa using hpq)]
        exact ih hall' hmem' hp

theorem dictGet_filter_of_all_bad {α : Type} {p : String × α → Bool} {k : String} {v : α} :
    ∀ {c : List (String × α)}, (∀ e, (k, e) ∈ c → e = v) → p (k, v) = false →
      dictGet (c.filter p) k = none := by
  intro c
  induction c with
  | nil => intro _ _; rfl
  | cons q qs ih =>
    intro hall hp
    obtain ⟨qk, qv⟩ := q
    have hall' : ∀ e, (k, e) ∈ qs → e = v := fun e he => hall e (List.mem_cons_of_mem _ he)
    by_cases hk : qk = k
    · subst hk
      have hv : qv = v := hall qv (List.mem_cons_self _ _)
      subst hv
      rw [List.filter_cons_of_neg (by simp [hp])]
      exact ih hall' hp
    · by_cases hpq : p (qk, qv) = true
      · rw [List.filter_cons_of_pos hpq]
        simp only [dictGet, if_neg hk]
        exact ih hall' hp
      · rw [List.filter_cons_of_neg (by simpa using hpq)]
        exact ih hall' hp

theorem dictGet_dictDel {α : Type} (c : List (String × α)) (k : String) :
    dictGet (dictDel c k) k = none := by
  induction c with
  | nil => rfl
  | cons q qs ih =>
    unfold dictDel at ih ⊢
    by_cases h : q.1 = k
    · rw [List.filter_cons_of_neg (by simp [h])]
      exact ih
    · rw [List.filter_cons_of_pos (by simp [h])]
      simpa only [dictGet, if_neg h] using ih

/-- After `set`, the written fingerprint maps to the fresh entry when the TTL
is non-negative, and is swept away when the TTL is negative. -/
theorem dictGet_set_cache (s : CacheService) (pr : PRAnalyzeRequest) (ctx : PRContext) (now : ℚ) :
    dictGet (CacheService.set s pr ctx now).cache (generate_cache_key pr) =
      (if (0 : ℚ) ≤ s.ttl then some ⟨ctx, now, pr.title⟩ else none) := by
  have hall : ∀ e, (generate_cache_key pr, e) ∈
      dictSet s.cache (generate_cache_key pr) (⟨ctx, now, pr.title⟩ : CacheEntry) →
      e = (⟨ctx, now, pr.title⟩ : CacheEntry) := fun e he => eq_of_mem_dictSet he
  have hmem := mem_dictSet_self s.cache (generate_cache_key pr) (⟨ctx, now, pr.title⟩ : CacheEntry)
  by_cases h : (0 : ℚ) ≤ s.ttl
  · rw [if_pos h]
    refine dictGet_filter_of_all_eq hall hmem ?_
    simp only [decide_eq_true_eq, sub_self, not_lt]
    exact h
  · rw [if_neg h]
    refine dictGet_filter_of_all_bad hall ?_
    simp only [decide_eq_false_iff_not, sub_self, not_not]
    exact lt_of_not_le h

/-- The keys listed by `stats` are exactly the keys of the store. -/
theorem stats_keys (s : CacheService) (now : ℚ) :
    (CacheService.stats s now).entries.map StatsEntry.key = s.cache.map Prod.fst := by
  simp only [CacheService.stats, List.map_map]
  rfl

/-! ### Retry-loop lemmas -/

/-- If every attempt before the last can not fully parse, and the last
attempt's provider text fails `json.loads`, the loop ends in the fallback
context synthesized from that last text, after one call per iteration. -/
theorem analyzeLoop_fallback (pr : PRAnalyzeRequest) (maxRetries : Nat)
    (outcomes : Nat → AttemptOutcome) (content msg : String)
    (hpre : ∀ i, i + 1 < maxRetries → (outcomes i).isParsedOk = false)
    (hlast : outcomes (maxRetries - 1) = .jsonDecodeError content msg) :
    ∀ fuel attempt lastErr, attempt + fuel = maxRetries → 0 < fuel →
      analyzeLoop pr maxRetries outcomes attempt fuel lastErr =
        (.returned (create_fallback_context pr content), fuel) := by
  intro fuel
  induction fuel with
  | zero => intro _ _ _ h0; exact absurd h0 (lt_irrefl 0)
  | succ f ih =>
    intro attempt lastErr htot _
    by_cases hf : f = 0
    · subst hf
      have ha : attempt = maxRetries - 1 := by omega
      have hout : outcomes attempt = .jsonDecodeError content msg := by rw [ha]; exact hlast
      simp only [analyzeLoop, hout]
      rw [if_pos (by omega)]
    · have hretry : attempt + 1 < maxRetries := by omega
      have hnp := hpre attempt hretry
      have hrec : ∀ m, analyzeLoop pr maxRetries outcomes (attempt + 1) f m =
          (.returned (create_fallback_context pr content), f) :=
        fun m => ih (attempt + 1) m (by omega) (by omega)
      cases hout : outcomes attempt with
      | parsedOk ctx => rw [hout] at hnp; simp [AttemptOutcome.isParsedOk] at hnp
      | jsonDecodeError c m =>
        simp only [analyzeLoop, hout]
        rw [if_neg (by omega), hrec m]
      | validationError m =>
        simp only [analyzeLoop, hout]
        rw [if_pos hretry, hrec m]
      | groqError m =>
        simp only [analyzeLoop, hout]
        by_cases hrl : isRateLimitError m = true
        · rw [if_pos hrl, if_pos hretry, hrec m]
        · rw [if_neg hrl, if_pos hretry, hrec m]
      | otherError m =>
        simp only [analyzeLoop, hout]
        rw [if_pos hretry, hrec m]

/-- If every attempt fails with a generic (non-rate-limited) `GroqError`, the
loop makes one call per iteration and ends raising the exhausted-retries
error that carries the final attempt's cause. -/
theorem analyzeLoop_generic (pr : PRAnalyzeRequest) (maxRetries : Nat)
    (msgOf : Nat → String)
    (hgeneric : ∀ i, isRateLimitError (msgOf i) = false) :
    ∀ fuel attempt lastErr, attempt + fuel = maxRetries → 0 < fuel →
      analyzeLoop pr maxRetries (fun i => .groqError (msgOf i)) attempt fuel lastErr =
        (.raised ("AI analysis failed after " ++ toString maxRetries ++ " attempts: "
          ++ msgOf (maxRetries - 1)), fuel) := by
  intro fuel
  induction fuel with
  | zero => intro _ _ _ h0; exact absurd h0 (lt_irrefl 0)
  | succ f ih =>
    intro attempt lastErr htot _
    by_cases hf : f = 0
    · subst hf
      have ha : attempt = maxRetries - 1 := by omega
      simp only [analyzeLoop]
      rw [if_neg (by simp [hgeneric attempt]), if_neg (by omega), ha]
    · simp only [analyzeLoop]
      rw [if_neg (by simp [hgeneric attempt]), if_pos (by omega),
        ih (attempt + 1) (msgOf attempt) (by omega) (by omega)]

/-- Reduction of `get` on a state whose store maps the fingerprint to a
known entry. -/
theorem get_eq_of_dictGet_some {s : CacheService} {pr : PRAnalyzeRequest} {now : ℚ}
    {e : CacheEntry} (h : dictGet s.cache (generate_cache_key pr) = some e) :
    CacheService.get s pr now =
      (if s.ttl < now - e.timestamp then
        ((none : Option PRContext), { s with cache := dictDel s.cache (generate_cache_key pr) })
      else (some e.data, s)) := by
  unfold CacheService.get
  rw [h]

/-- Reduction of `get` on a state whose store lacks the fingerprint. -/
theorem get_eq_of_dictGet_none {s : CacheService} {pr : PRAnalyzeRequest} {now : ℚ}
    (h : dictGet s.cache (generate_cache_key pr) = none) :
    CacheService.get s pr now = (none, s) := by
  unfold CacheService.get
  rw [h]

theorem not_mem_keys_of_dictGet_none {α : Type} {c : List (String × α)} {k : String}
    (h : dictGet c k = none) : k ∉ c.map Prod.fst := by
  intro hmem
  obtain ⟨q, hq, hkey⟩ := List.mem_map.mp hmem
  exact dictGet_none_not_mem h q.2 (by rw [← hkey]; simpa using hq)

/-! ### Shared concrete inputs for witnesses -/

/-- The end-to-end example request of spec §8.7. -/
def samplePR : PRAnalyzeRequest :=
  { title := "Fix null check", description := "",
    files := [⟨"a.ts", "modified", 10, 2, 12, none⟩, ⟨"b.ts", "modified", 5, 1, 6, none⟩],
    commits := [], base_branch := "main", head_branch := "", pr_url := "" }

/-- Same five fingerprint fields as `samplePR`, every other field different. -/
def samplePRVariant : PRAnalyzeRequest :=
  { title := "Fix null check", description := "A completely different description",
    files := [⟨"a.ts", "added", 12, 0, 12, some "@@ patch text"⟩,
              ⟨"b.ts", "removed", 3, 3, 6, some "@@ other patch"⟩],
    commits := [⟨"abc123", "fix", "dev"⟩], base_branch := "develop",
    head_branch := "feature", pr_url := "https://example.com/pr/1" }

def sampleContext : PRContext :=
  { summary := "s", purpose := "p", testing_focus := ["t"], potential_risks := ["r"],
    affected_areas := ["a"], review_priority := "low",
    estimated_review_time := "5-10 minutes", key_changes := ["k"] }

def longDescription : String := String.mk (List.replicate 10001 'a')

/-! ### Claim theorems -/

/-- C1 (amended): when the provider call succeeds on every attempt but its
text fails `json.loads` (malformed JSON syntax), and no earlier attempt
fully parsed, the final attempt returns the synthesized fallback context —
never a raised error — after exactly `maxRetries` calls. (As originally
stated the claim is false: text that decodes as JSON but fails
`PRContext` validation, e.g. missing required fields, is handled by the
generic exception path and raises after exhausting retries; see the
counterexample.) -/
theorem claim_C1_parse_failure_fallback (pr : PRAnalyzeRequest) (maxRetries : Nat)
    (outcomes : Nat → AttemptOutcome) (content msg : String)
    (hpos : 0 < maxRetries)
    (hpre : ∀ i, i + 1 < maxRetries → (outcomes i).isParsedOk = false)
    (hlast : outcomes (maxRetries - 1) = .jsonDecodeError content msg) :
    analyze_pr pr maxRetries outcomes =
      (.returned (create_fallback_context pr content), maxRetries) :=
  analyzeLoop_fallback pr maxRetries outcomes content msg hpre hlast maxRetries 0 "None"
    (by omega) hpos

/-- C1 witness: three malformed-syntax attempts end in the fallback context
with three provider calls. -/
theorem claim_C1_witness :
    analyze_pr samplePR 3 (fun _ => .jsonDecodeError "not json" "Expecting value") =
      (.returned (create_fallback_context samplePR "not json"), 3) :=
  claim_C1_parse_failure_fallback samplePR 3 _ "not json" "Expecting value" (by omega)
    (fun _ _ => rfl) rfl

/-- C1 counterexample: a response that parses as JSON but fails
`PRContext` validation on all three attempts makes `analyze_pr` raise a
hard error — parse failure is propagated, contradicting the claim that the
final attempt always falls back and never raises. -/
theorem claim_C1_counterexample :
    analyze_pr samplePR 3 (fun _ => .validationError "1 validation error for PRContext") =
      (.raised "Analysis failed after 3 attempts: 1 validation error for PRContext", 3) := rfl

/-- C2: when every attempt fails with a generic transient `GroqError`,
`analyze_pr` makes exactly `maxRetries` provider calls (so with the default
of 3, never a fourth) and raises the exhausted-retries error carrying the
last underlying cause; it never returns a result. -/
theorem claim_C2_retry_bound (pr : PRAnalyzeRequest) (maxRetries : Nat)
    (msgOf : Nat → String)
    (hpos : 0 < maxRetries)
    (hgeneric : ∀ i, isRateLimitError (msgOf i) = false) :
    analyze_pr pr maxRetries (fun i => .groqError (msgOf i)) =
      (.raised ("AI analysis failed after " ++ toString maxRetries ++ " attempts: "
        ++ msgOf (maxRetries - 1)), maxRetries) :=
  analyzeLoop_generic pr maxRetries msgOf hgeneric maxRetries 0 "None" (by omega) hpos

/-- C2 witness: three generic failures, exactly three calls, hard error
carrying the last cause. -/
theorem claim_C2_witness :
    analyze_pr samplePR 3 (fun _ => .groqError "Connection error") =
      (.raised "AI analysis failed after 3 attempts: Connection error", 3) :=
  claim_C2_retry_bound samplePR 3 (fun _ => "Connection error") (by omega) (fun _ => rfl)

/-- C3: the cache fingerprint factors through exactly the five canonical
fields — title, file count, total additions, total deletions, first three
file paths — via first-16-hex-characters-of-SHA-256-of-UTF-8-bytes of the
sorted-key JSON record of those fields; hence any two requests agreeing on
those five fields fingerprint identically, whatever their other fields. -/
theorem claim_C3_fingerprint (A B : PRAnalyzeRequest)
    (ht : A.title = B.title)
    (hc : A.files.length = B.files.length)
    (ha : totalAdditions A.files = totalAdditions B.files)
    (hd : totalDeletions A.files = totalDeletions B.files)
    (hs : (A.files.take 3).map (fun f => f.filename) = (B.files.take 3).map (fun f => f.filename)) :
    generate_cache_key A =
      fingerprintOfFields A.title A.files.length (totalAdditions A.files)
        (totalDeletions A.files) ((A.files.take 3).map (fun f => f.filename)) ∧
    generate_cache_key A = generate_cache_key B := by
  refine ⟨rfl, ?_⟩
  simp only [generate_cache_key, cache_input, ht, hc, ha, hd, hs]

/-- C3 witness: two concrete requests differing in description, statuses,
patches, commits, branches and URL, but agreeing on the five canonical
fields, yield the same fingerprint. -/
theorem claim_C3_witness :
    generate_cache_key samplePR =
      fingerprintOfFields samplePR.title samplePR.files.length (totalAdditions samplePR.files)
        (totalDeletions samplePR.files) ((samplePR.files.take 3).map (fun f => f.filename)) ∧
    generate_cache_key samplePR = generate_cache_key samplePRVariant :=
  claim_C3_fingerprint samplePR samplePRVariant rfl rfl (by decide) (by decide) rfl

/-- C4: for every TTL, after `set` at `t0`, a `get` at any `t1` past
`t0 + TTL` reports absent, leaves no entry under the fingerprint (the read
evicts it), and every later `stats` no longer lists the fingerprint. -/
theorem claim_C4_ttl_expiry (s : CacheService) (pr : PRAnalyzeRequest) (R : PRContext)
    (t0 t1 : ℚ) (h : s.ttl + t0 < t1) :
    ((CacheService.set s pr R t0).get pr t1).1 = none ∧
    dictGet ((CacheService.set s pr R t0).get pr t1).2.cache (generate_cache_key pr) = none ∧
    ∀ now, generate_cache_key pr ∉
      (((CacheService.set s pr R t0).get pr t1).2.stats now).entries.map StatsEntry.key := by
  have hset := dictGet_set_cache s pr R t0
  by_cases h0 : (0 : ℚ) ≤ s.ttl
  · rw [if_pos h0] at hset
    have hexp : (CacheService.set s pr R t0).ttl <
        t1 - (⟨R, t0, pr.title⟩ : CacheEntry).timestamp := by
      show s.ttl < t1 - t0
      linarith
    rw [get_eq_of_dictGet_some hset, if_pos hexp]
    refine ⟨rfl, dictGet_dictDel _ _, ?_⟩
    intro now hmem
    rw [stats_keys] at hmem
    exact not_mem_keys_of_dictGet_none (dictGet_dictDel _ _) hmem
  · rw [if_neg h0] at hset
    rw [get_eq_of_dictGet_none hset]
    refine ⟨rfl, hset, ?_⟩
    intro now hmem
    rw [stats_keys] at hmem
    exact not_mem_keys_of_dictGet_none hset hmem

/-- C4 witness: TTL 3600, set at 0, get at 3601. -/
theorem claim_C4_witness :
    ((CacheService.set ⟨[], 3600⟩ samplePR sampleContext 0).get samplePR 3601).1 = none ∧
    dictGet ((CacheService.set ⟨[], 3600⟩ samplePR sampleContext 0).get samplePR 3601).2.cache
      (generate_cache_key samplePR) = none ∧
    ∀ now, generate_cache_key samplePR ∉
      (((CacheService.set ⟨[], 3600⟩ samplePR sampleContext 0).get samplePR 3601).2.stats
        now).entries.map StatsEntry.key :=
  claim_C4_ttl_expiry ⟨[], 3600⟩ samplePR sampleContext 0 3601 (by norm_num)

/-- C5: at every attempt index at which a retry will occur, the rate-limit
backoff is strictly longer than the generic backoff at the same index, with
the rate-limit delay capped at 30 seconds and the generic delay at 10. -/
theorem claim_C5_backoff_distinction (attempt maxRetries : Nat)
    (hretry : attempt + 1 < maxRetries) :
    generic_wait attempt < rate_limit_wait attempt ∧
    rate_limit_wait attempt ≤ 30 ∧ generic_wait attempt ≤ 10 := by
  refine ⟨?_, min_le_right _ _, min_le_right _ _⟩
  rcases Nat.lt_or_ge attempt 3 with hlt | hge
  · interval_cases attempt <;> decide
  · have h30 : rate_limit_wait attempt = 30 := by
      unfold rate_limit_wait
      have : 30 ≤ 2 ^ (attempt + 2) := by
        calc 30 ≤ 2 ^ 5 := by norm_num
        _ ≤ 2 ^ (attempt + 2) := Nat.pow_le_pow_right (by norm_num) (by omega)
      omega
    have h10 : generic_wait attempt ≤ 10 := min_le_right _ _
    omega

/-- C5 witness: attempt index 0 with the default three attempts. -/
theorem claim_C5_witness :
    generic_wait 0 < rate_limit_wait 0 ∧ rate_limit_wait 0 ≤ 30 ∧ generic_wait 0 ≤ 10 :=
  claim_C5_backoff_distinction 0 3 (by norm_num)

/-- C6: fallback synthesis ignores the raw provider text (so it is a
deterministic total function of the change description), assigns priority
and estimated review time by the fixed total-change-volume bands, and
derives affected areas and key changes from the first five file paths and
statuses. -/
theorem claim_C6_fallback_bands (pr : PRAnalyzeRequest) (raw raw2 : String) :
    create_fallback_context pr raw = create_fallback_context pr raw2 ∧
    (total_changes pr < 50 →
      (create_fallback_context pr raw).review_priority = "low" ∧
      (create_fallback_context pr raw).estimated_review_time = "5-10 minutes") ∧
    (50 ≤ total_changes pr → total_changes pr < 200 →
      (create_fallback_context pr raw).review_priority = "medium" ∧
      (create_fallback_context pr raw).estimated_review_time = "15-25 minutes") ∧
    (200 ≤ total_changes pr → total_changes pr < 500 →
      (create_fallback_context pr raw).review_priority = "high" ∧
      (create_fallback_context pr raw).estimated_review_time = "30-45 minutes") ∧
    (500 ≤ total_changes pr →
      (create_fallback_context pr raw).review_priority = "critical" ∧
      (create_fallback_context pr raw).estimated_review_time = "1+ hours") ∧
    (create_fallback_context pr raw).affected_areas =
      (pr.files.take 5).map (fun f => (f.filename.splitOn "/").headD "") ∧
    (create_fallback_context pr raw).key_changes =
      (pr.files.take 5).map (fun f => f.filename ++ " (" ++ f.status ++ ")") := by
  refine ⟨rfl, ?_, ?_, ?_, ?_, rfl, rfl⟩
  · intro h1
    constructor
    · show fallback_priority pr = "low"
      unfold fallback_priority
      rw [if_pos h1]
    · show fallback_review_time pr = "5-10 minutes"
      unfold fallback_review_time
      rw [if_pos h1]
  · intro h1 h2
    constructor
    · show fallback_priority pr = "medium"
      unfold fallback_priority
      rw [if_neg (by omega), if_pos h2]
    · show fallback_review_time pr = "15-25 minutes"
      unfold fallback_review_time
      rw [if_neg (by omega), if_pos h2]
  · intro h1 h2
    constructor
    · show fallback_priority pr = "high"
      unfold fallback_priority
      rw [if_neg (by omega), if_neg (by omega), if_pos h2]
    · show fallback_review_time pr = "30-45 minutes"
      unfold fallback_review_time
      rw [if_neg (by omega), if_neg (by omega), if_pos h2]
  · intro h1
    constructor
    · show fallback_priority pr = "critical"
      unfold fallback_priority
      rw [if_neg (by omega), if_neg (by omega), if_neg (by omega)]
    · show fallback_review_time pr = "1+ hours"
      unfold fallback_review_time
      rw [if_neg (by omega), if_neg (by omega), if_neg (by omega)]

/-- C6 witness: the 18-line example request lands in the low band whatever
raw text accompanied it. -/
theorem claim_C6_witness :
    create_fallback_context samplePR "raw a" = create_fallback_context samplePR "raw b" ∧
    (create_fallback_context samplePR "raw a").review_priority = "low" ∧
    (create_fallback_context samplePR "raw a").estimated_review_time = "5-10 minutes" :=
  ⟨(claim_C6_fallback_bands samplePR "raw a" "raw b").1,
   (claim_C6_fallback_bands samplePR "raw a" "raw b").2.1 (by decide)⟩

/-- C7: with a non-negative TTL, a `get` performed at the instant of a
`set` returns exactly the stored context, and `set` leaves the fingerprint
mapped to a single fresh entry whose timestamp is the write instant (age
zero), overwriting whatever entry was there. -/
theorem claim_C7_cache_hit (s : CacheService) (pr : PRAnalyzeRequest) (R : PRContext)
    (t0 : ℚ) (h : (0 : ℚ) ≤ s.ttl) :
    ((CacheService.set s pr R t0).get pr t0).1 = some R ∧
    dictGet (CacheService.set s pr R t0).cache (generate_cache_key pr) =
      some ⟨R, t0, pr.title⟩ := by
  have hset := dictGet_set_cache s pr R t0
  rw [if_pos h] at hset
  refine ⟨?_, hset⟩
  rw [get_eq_of_dictGet_some hset,
    if_neg (by show ¬ s.ttl < t0 - t0; rw [sub_self]; exact not_lt.mpr h)]

/-- C7 witness: TTL 3600, set then get at the same instant. -/
theorem claim_C7_witness :
    ((CacheService.set ⟨[], 3600⟩ samplePR sampleContext 7).get samplePR 7).1 =
      some sampleContext ∧
    dictGet (CacheService.set ⟨[], 3600⟩ samplePR sampleContext 7).cache
      (generate_cache_key samplePR) = some ⟨sampleContext, 7, samplePR.title⟩ :=
  claim_C7_cache_hit ⟨[], 3600⟩ samplePR sampleContext 7 (by norm_num)

/-- C8: every `set` sweeps the whole store — afterwards no entry at all has
age over the TTL (not only the written key), while every unexpired entry
under a different key survives the sweep unchanged. -/
theorem claim_C8_set_sweep (s : CacheService) (pr : PRAnalyzeRequest) (R : PRContext)
    (t : ℚ) :
    (∀ q ∈ (CacheService.set s pr R t).cache, t - q.2.timestamp ≤ s.ttl) ∧
    (∀ q ∈ s.cache, q.1 ≠ generate_cache_key pr → t - q.2.timestamp ≤ s.ttl →
      q ∈ (CacheService.set s pr R t).cache) := by
  constructor
  · intro q hq
    have := (List.mem_filter.mp hq).2
    simp only [decide_eq_true_eq, not_lt] at this
    exact this
  · intro q hq hne hage
    refine List.mem_filter.mpr ⟨mem_dictSet_of_ne hq hne _, ?_⟩
    simp only [decide_eq_true_eq, not_lt]
    exact hage

/-- C8 witness: after a `set` at instant 5 on an empty store with TTL 3600,
the surviving entry (the freshly written one) has age within the TTL. -/
theorem claim_C8_witness :
    (5 : ℚ) - (⟨sampleContext, 5, "Fix null check"⟩ : CacheEntry).timestamp ≤ (3600 : ℚ) :=
  (claim_C8_set_sweep ⟨[], 3600⟩ samplePR sampleContext 5).1
    (generate_cache_key samplePR, ⟨sampleContext, 5, "Fix null check"⟩)
    (by
      have h1 : (CacheService.set ⟨[], 3600⟩ samplePR sampleContext 5).cache =
          List.filter (fun q => decide (¬ (3600 : ℚ) < 5 - q.2.timestamp))
            [(generate_cache_key samplePR,
              (⟨sampleContext, 5, "Fix null check"⟩ : CacheEntry))] := rfl
      rw [h1, List.filter_cons_of_pos
        (by simp only [decide_eq_true_eq]; norm_num)]
      exact List.mem_singleton.mpr rfl)

/-- C9: request files validation accepts a list iff it has between 1 and
100 entries: zero files (the `min_items=1` constraint) and more than 100
files (the `validate_files` validator) are rejected. -/
theorem claim_C9_file_bounds (v : List PRFile) :
    filesAccepted v = true ↔ 1 ≤ v.length ∧ v.length ≤ 100 := by
  by_cases h : 100 < v.length
  · simp [filesAccepted, filesMinItemsOk, validate_files, if_pos h]
    omega
  · simp [filesAccepted, filesMinItemsOk, validate_files, if_neg h]
    omega

/-- C9 witness: a one-file list is accepted, the empty list is not. -/
theorem claim_C9_witness :
    filesAccepted [⟨"a.ts", "modified", 10, 2, 12, none⟩] = true :=
  (claim_C9_file_bounds _).mpr (by constructor <;> decide)

/-- C10: a missing or empty description is normalized to the empty string,
a description of length at most 10000 passes through unchanged, and a
longer one is silently replaced by its first 10000 characters plus the
literal suffix rather than rejected. -/
theorem claim_C10_description_truncation :
    validate_description none = "" ∧
    validate_description (some "") = "" ∧
    (∀ s : String, 10000 < s.length →
      validate_description (some s) = s.take 10000 ++ "... (truncated)") ∧
    (∀ s : String, s.length ≤ 10000 → validate_description (some s) = s) := by
  refine ⟨rfl, rfl, ?_, ?_⟩
  · intro s hlen
    have hne : s ≠ "" := by
      intro he
      rw [he] at hlen
      simp [String.length] at hlen
    simp only [validate_description, if_pos (And.intro hne hlen)]
  · intro s hlen
    simp only [validate_description]
    rw [if_neg (fun hcond => absurd hcond.2 (by omega))]

/-- C10 witness: a 10001-character description is truncated with the
suffix, and a missing description becomes empty. -/
theorem claim_C10_witness :
    validate_description (some longDescription) =
      longDescription.take 10000 ++ "... (truncated)" ∧
    validate_description none = "" :=
  ⟨claim_C10_description_truncation.2.2.1 longDescription
     (by
       have h : longDescription.length = 10001 := by
         show (List.replicate 10001 'a').length = 10001
         rw [List.length_replicate]
       rw [h]
       norm_num),
   claim_C10_description_truncation.1⟩

end GitPRBackend

